import Mathlib

/-!
# Verification of the sportscardtracker profit core

Shallow embedding of the profit/ROI calculation engine
(`netlify/functions/utils/calculator.js`), the deal-finding handler
(`netlify/functions/find-deals.js`) and the sale-finalization handler
(`netlify/functions/record-sale.js`) of the sportscardtracker repository.

JavaScript numbers are modelled by exact rationals (`ℚ`); integer cent
amounts by `ℤ`.  `Math.round` rounds half toward positive infinity, which
is `⌊x + 1/2⌋`.  `Number.prototype.toFixed(2)` followed by `parseFloat`
(the pattern used by the record-sale handler for ROI) also rounds half
toward positive infinity at two decimals, hence is modelled by the same
floor-based formula.
-/

set_option maxRecDepth 8000

namespace SportsCard

/-- JavaScript `Math.round`: round half toward positive infinity,
`⌊x + 1/2⌋`.  Written with `Rat.floor` so that it evaluates by kernel
reduction; `jsRound_eq_floor` below restates it with `Int.floor`. -/
def jsRound (x : ℚ) : ℤ := (x + 1/2).floor

/-- `x.toFixed(2)` then `parseFloat`: round to two decimals, half toward
positive infinity (the ECMAScript `toFixed` tie rule picks the larger
candidate). -/
def toFixed2 (x : ℚ) : ℚ := (jsRound (x * 100) : ℚ) / 100

/-- `calculateEbayFees` from `utils/calculator.js`:
fee arithmetic is performed in decimal-dollar space and the total is
rounded to the nearest cent.  Defaults: 13.0 % percentage fee,
30¢ transaction fee. -/
def calculateEbayFees (salePriceCents : ℤ) (feePercent : ℚ := 13)
    (transactionFeeCents : ℤ := 30) : ℤ :=
  let salePriceDollars : ℚ := (salePriceCents : ℚ) / 100
  let finalValueFee : ℚ := salePriceDollars * (feePercent / 100)
  let totalFeesDollars : ℚ := finalValueFee + ((transactionFeeCents : ℚ) / 100)
  jsRound (totalFeesDollars * 100)

/-- The Money breakdown returned by `calculateProfit`. -/
structure ProfitCalc where
  purchasePriceCents : ℤ
  salePriceCents : ℤ
  ebayFeeCents : ℤ
  ebayTransactionFeeCents : ℤ
  shippingCostCents : ℤ
  otherCostsCents : ℤ
  totalCostsCents : ℤ
  grossProfitCents : ℤ
  netProfitCents : ℤ
  roi : ℚ
deriving DecidableEq, Repr

/-- `calculateProfit` from `utils/calculator.js`.  Defaults: 500¢ shipping,
0¢ other costs.  The ROI field is `Math.round(roi * 100) / 100` applied to
`netProfit / purchase * 100` (or 0 when the purchase price is not
positive). -/
def calculateProfit (purchasePriceCents salePriceCents : ℤ)
    (shippingCostCents : ℤ := 500) (otherCostsCents : ℤ := 0) : ProfitCalc :=
  let ebayFeeCents := calculateEbayFees salePriceCents
  let ebayTransactionFeeCents : ℤ := 30
  let totalCostsCents := purchasePriceCents + shippingCostCents + otherCostsCents + ebayFeeCents
  let grossProfitCents := salePriceCents - purchasePriceCents
  let netProfitCents := salePriceCents - totalCostsCents
  let roi : ℚ :=
    if purchasePriceCents > 0 then
      ((netProfitCents : ℚ) / (purchasePriceCents : ℚ)) * 100
    else 0
  { purchasePriceCents := purchasePriceCents
    salePriceCents := salePriceCents
    ebayFeeCents := ebayFeeCents - ebayTransactionFeeCents
    ebayTransactionFeeCents := ebayTransactionFeeCents
    shippingCostCents := shippingCostCents
    otherCostsCents := otherCostsCents
    totalCostsCents := totalCostsCents
    grossProfitCents := grossProfitCents
    netProfitCents := netProfitCents
    roi := (jsRound (roi * 100) : ℚ) / 100 }

/-! ## Sale finalization (`netlify/functions/record-sale.js`)

The handler reads the whole `inventory` collection, rejects missing
parameters, unknown ids and already-sold items, otherwise marks the item
sold and appends an immutable sale record to the `sales` collection.
Collections are modelled as association lists (JavaScript objects keep
insertion order; updating an existing key keeps its position, a fresh key
is appended). -/

/-- An inventory item as stored in the `inventory` blob.  Fields that an
unsold item does not carry yet are plain fields here; the handler
overwrites all of them on the success path. -/
structure InventoryItem where
  cardId : String
  cardName : String
  consoleName : String
  purchaseDate : String
  purchasePriceCents : ℤ
  sold : Bool
  soldDate : String
  soldPriceCents : ℤ
  ebayFeesCents : ℤ
  netProfitCents : ℤ
  roi : ℚ
  saleNotes : String
  updatedAt : String
deriving DecidableEq, Repr

/-- A sale record as appended to the `sales` blob. -/
structure SaleRecord where
  id : String
  inventoryId : String
  cardId : String
  cardName : String
  consoleName : String
  purchaseDate : String
  soldDate : String
  purchasePriceCents : ℤ
  soldPriceCents : ℤ
  ebayFeesCents : ℤ
  netProfitCents : ℤ
  roi : ℚ
  notes : String
  createdAt : String
deriving DecidableEq, Repr

/-- The request body of `record-sale`.  `soldPrice` and `actualFees` are
dollar amounts; absent JSON fields are `none`, and the absent/empty
`inventoryId` is the empty string (both are falsy in JavaScript). -/
structure SaleRequest where
  inventoryId : String
  soldDate : Option String
  soldPrice : Option ℚ
  actualFees : Option ℚ
  notes : String
deriving DecidableEq, Repr

/-- Outcome of one `record-sale` invocation: the HTTP response fields plus
the persistent state after the call. -/
structure RecordSaleResult where
  statusCode : ℕ
  success : Bool
  errorMsg : Option String
  inventory : List (String × InventoryItem)
  sales : List (String × SaleRecord)
  sale : Option SaleRecord
  updatedItem : Option InventoryItem
deriving DecidableEq, Repr

/-- `inventoryData[inventoryId]` on an association list. -/
def lookupItem (k : String) (l : List (String × InventoryItem)) :
    Option InventoryItem :=
  (l.find? (fun kv => kv.1 == k)).map (·.2)

/-- `inventoryData[inventoryId] = v` when the key is already present:
replace in place, keeping object insertion order. -/
def storeItem (k : String) (v : InventoryItem)
    (l : List (String × InventoryItem)) : List (String × InventoryItem) :=
  l.map (fun kv => if kv.1 == k then (k, v) else kv)

/-- JavaScript `soldDate || fallback`: an absent or empty string falls back. -/
def jsOrString (o : Option String) (fallback : String) : String :=
  match o with
  | none => fallback
  | some s => if s = "" then fallback else s

/-- The `record-sale` handler (POST path), translated from
`netlify/functions/record-sale.js`.  `saleId` stands for the generated
`sale_${Date.now()}_...` id, `nowDate` for
`new Date().toISOString().split('T')[0]` and `nowIso` for
`new Date().toISOString()`. -/
def recordSaleHandler (inventoryData : List (String × InventoryItem))
    (salesData : List (String × SaleRecord)) (req : SaleRequest)
    (saleId nowDate nowIso : String) : RecordSaleResult :=
  -- if (!inventoryId || soldPrice === undefined) return 400
  match req.soldPrice, req.inventoryId == "" with
  | none, _ =>
      ⟨400, false, some "inventoryId and soldPrice are required",
        inventoryData, salesData, none, none⟩
  | some _, true =>
      ⟨400, false, some "inventoryId and soldPrice are required",
        inventoryData, salesData, none, none⟩
  | some soldPrice, false =>
    match lookupItem req.inventoryId inventoryData with
    | none =>
        ⟨404, false, some "Inventory item not found",
          inventoryData, salesData, none, none⟩
    | some item =>
      if item.sold then
        ⟨400, false, some "Item already sold",
          inventoryData, salesData, none, none⟩
      else
        let soldPriceCents : ℤ := jsRound (soldPrice * 100)
        let ebayFeesCents : ℤ :=
          match req.actualFees with
          | some f => jsRound (f * 100)
          | none => jsRound ((soldPriceCents : ℚ) * (13/100) + 30)
        let netProfitCents : ℤ := soldPriceCents - item.purchasePriceCents - ebayFeesCents
        let roi : ℚ :=
          if item.purchasePriceCents > 0 then
            toFixed2 (((netProfitCents : ℚ) / (item.purchasePriceCents : ℚ)) * 100)
          else 0
        let soldDateVal := jsOrString req.soldDate nowDate
        let updatedItem : InventoryItem :=
          { item with
            sold := true
            soldDate := soldDateVal
            soldPriceCents := soldPriceCents
            ebayFeesCents := ebayFeesCents
            netProfitCents := netProfitCents
            roi := roi
            saleNotes := req.notes
            updatedAt := nowIso }
        let sale : SaleRecord :=
          { id := saleId
            inventoryId := req.inventoryId
            cardId := item.cardId
            cardName := item.cardName
            consoleName := item.consoleName
            purchaseDate := item.purchaseDate
            soldDate := soldDateVal
            purchasePriceCents := item.purchasePriceCents
            soldPriceCents := soldPriceCents
            ebayFeesCents := ebayFeesCents
            netProfitCents := netProfitCents
            roi := roi
            notes := req.notes
            createdAt := nowIso }
        ⟨200, true, none,
          storeItem req.inventoryId updatedItem inventoryData,
          salesData ++ [(saleId, sale)],
          some sale, some updatedItem⟩

/-! ## Deal evaluation (`netlify/functions/find-deals.js`)

The handler parses each raw product with `parseProductData`
(`utils/api-client.js`), which always yields a string `genre`
(`product.genre || ''`, so a missing genre is the empty string) and an
integer `loosePriceCents` (`parsePriceToCents` returns `0` for a missing,
empty or unparsable price).  The evaluation loop is modelled on those
parsed cards. -/

/-- A parsed catalog candidate, restricted to the fields the deal loop
reads.  A missing genre is `""`; a missing/unusable loose price is `0`. -/
structure Card where
  genre : String
  loosePriceCents : ℤ
deriving DecidableEq, Repr

/-- One entry of the handler's `deals` output array. -/
structure Deal where
  card : Card
  marketValueCents : ℤ
  recommendedBuyPriceCents : ℤ
  potentialProfitCents : ℤ
  roi : ℚ
deriving DecidableEq, Repr

/-- A string's characters, lower-cased: `s.toLowerCase()`. -/
def lowerChars (s : String) : List Char := s.data.map Char.toLower

/-- Whether `nee` is an initial segment of `hay`. -/
def charsStart : List Char → List Char → Bool
  | [], _ => true
  | _ :: _, [] => false
  | a :: as, b :: bs => a == b && charsStart as bs

/-- JavaScript `hay.includes(nee)`: `nee` occurs contiguously in `hay`. -/
def charsIncl (nee : List Char) : List Char → Bool
  | [] => charsStart nee []
  | a :: t => charsStart nee (a :: t) || charsIncl nee t

/-- The genre skip test of the deal loop:
`genre && card.genre && !card.genre.toLowerCase().includes(genre.toLowerCase())`.
An absent body field is `none`; the empty string is falsy. -/
def genreSkip (genre : Option String) (cardGenre : String) : Bool :=
  match genre with
  | none => false
  | some g =>
    if g = "" then false
    else if cardGenre = "" then false
    else !(charsIncl (lowerChars g) (lowerChars cardGenre))

/-- The price-ceiling skip test of the deal loop:
`maxPrice && recommendedBuyPriceCents > maxPrice * 100`
(`maxPrice = 0` is falsy and disables the ceiling). -/
def maxPriceSkip (maxPrice : Option ℚ) (recommendedBuyPriceCents : ℤ) : Bool :=
  match maxPrice with
  | none => false
  | some m => if m = 0 then false else decide ((recommendedBuyPriceCents : ℚ) > m * 100)

/-- One iteration of the `for (const product of products)` loop of
`find-deals.js`: `none` when the candidate is skipped (by the genre filter,
a zero market value, or the price ceiling) or fails the minimum-ROI test,
otherwise the deal pushed onto `deals`. -/
def evalCandidate (minRoi : ℚ) (maxPrice : Option ℚ) (genre : Option String)
    (card : Card) : Option Deal :=
  if genreSkip genre card.genre then none
  else
    -- const marketValueCents = card.loosePriceCents || 0  (identity on ℤ)
    let marketValueCents : ℤ := card.loosePriceCents
    if marketValueCents = 0 then none
    else
      let recommendedBuyPriceCents : ℤ := jsRound ((marketValueCents : ℚ) * (8/10))
      if maxPriceSkip maxPrice recommendedBuyPriceCents then none
      else
        let profitCalc := calculateProfit recommendedBuyPriceCents marketValueCents
        if profitCalc.roi ≥ minRoi then
          some { card := card
                 marketValueCents := marketValueCents
                 recommendedBuyPriceCents := recommendedBuyPriceCents
                 potentialProfitCents := profitCalc.netProfitCents
                 roi := profitCalc.roi }
        else none

/-- The `deals` array before sorting, in input (candidate) order. -/
def findDealsUnsorted (cards : List Card) (minRoi : ℚ) (maxPrice : Option ℚ)
    (genre : Option String) : List Deal :=
  cards.filterMap (evalCandidate minRoi maxPrice genre)

/-- Insert a deal into a list, before the first entry whose ROI does not
exceed it.  Folding this over the list is the unique stable
descending-by-ROI sort, which is what `deals.sort((a, b) => b.roi - a.roi)`
performs (`Array.prototype.sort` is stable per ES2019). -/
def insertDeal (d : Deal) : List Deal → List Deal
  | [] => [d]
  | e :: es => if e.roi ≤ d.roi then d :: e :: es else e :: insertDeal d es

/-- Stable sort of the deals by ROI descending. -/
def sortDeals : List Deal → List Deal
  | [] => []
  | d :: ds => insertDeal d (sortDeals ds)

/-- The full result of the `find-deals` handler for a parsed candidate
list: evaluate each candidate in order, then sort by ROI descending.
Defaults mirror the destructuring `{ minRoi = 20, maxPrice, genre }`. -/
def findDeals (cards : List Card) (minRoi : ℚ := 20)
    (maxPrice : Option ℚ := none) (genre : Option String := none) : List Deal :=
  sortDeals (findDealsUnsorted cards minRoi maxPrice genre)

/-! ## Concrete inputs used by counterexamples and witnesses -/

/-- An unsold inventory item bought for 5000¢. -/
def itemUnsold : InventoryItem :=
  ⟨"c1", "Griffey RC", "Baseball", "2024-01-01", 5000, false, "", 0, 0, 0, 0, "", ""⟩

/-- A request finalizing `itemUnsold` at $75.00 with no fee override. -/
def reqSale : SaleRequest := ⟨"i1", none, some 75, none, ""⟩

/-- The same item already marked sold. -/
def itemSold : InventoryItem :=
  ⟨"c1", "Griffey RC", "Baseball", "2024-01-01", 5000, true, "2024-02-01", 7500, 1005, 995, 199/10, "", "t0"⟩

/-- A candidate worth 100¢: its 80¢ recommended buy yields a negative ROI. -/
def cardTiny : Card := ⟨"", 100⟩

/-- A candidate worth 2000¢: its recommended buy price is 1600¢. -/
def cardMid : Card := ⟨"", 2000⟩

/-- A candidate worth 10000¢ (concrete scenario C of the spec). -/
def cardBig : Card := ⟨"", 10000⟩

/-- A candidate with an empty (missing) genre. -/
def cardNoGenre : Card := ⟨"", 5000⟩

/-- A football candidate. -/
def cardFootball : Card := ⟨"Football", 5000⟩

/-- The deal produced for `cardTiny`: ROI −653.75 %. -/
def dealTiny : Deal := ⟨cardTiny, 100, 80, -523, -2615/4⟩

/-- The deal produced for `cardMid`: buy 1600¢, ROI −24.37 %. -/
def dealMid : Deal := ⟨cardMid, 2000, 1600, -390, -2437/100⟩

/-- The deal produced for `cardBig`: buy 8000¢, profit 170¢, ROI 2.13 %. -/
def dealBig : Deal := ⟨cardBig, 10000, 8000, 170, 213/100⟩

/-- The deal produced for `cardNoGenre`: ROI −4.5 %. -/
def dealNoGenre : Deal := ⟨cardNoGenre, 5000, 4000, -180, -9/2⟩

/-! ## Theorems -/

theorem jsRound_eq_floor (x : ℚ) : jsRound x = ⌊x + 1/2⌋ := by
  rw [jsRound, Rat.floor_def', ← Rat.floor_def]

theorem jsRound_add_intCast (x : ℚ) (n : ℤ) :
    jsRound (x + n) = jsRound x + n := by
  rw [jsRound_eq_floor, jsRound_eq_floor, add_right_comm, Int.floor_add_int]

/-- The total eBay fee is the percentage fee, computed in decimal-dollar
space and rounded to the nearest cent, plus the 30¢ transaction fee. -/
theorem calculateEbayFees_eq (s : ℤ) :
    calculateEbayFees s = jsRound ((s : ℚ) / 100 * (13 / 100) * 100) + 30 := by
  show jsRound (((s : ℚ) / 100 * ((13 : ℚ) / 100) + ((30 : ℤ) : ℚ) / 100) * 100)
      = jsRound ((s : ℚ) / 100 * (13 / 100) * 100) + 30
  rw [show (((s : ℚ) / 100 * ((13 : ℚ) / 100) + ((30 : ℤ) : ℚ) / 100) * 100)
        = (s : ℚ) / 100 * (13 / 100) * 100 + ((30 : ℤ) : ℚ) from by push_cast; ring]
  exact jsRound_add_intCast _ 30

/-- **C1.** For all non-negative integer cent inputs `p` (purchase price),
`s` (sale price), `sh` (shipping), `oc` (additional costs), the net profit
computed by `calculateProfit` equals `s` minus the sum of `p`, `sh`, `oc`
and the total marketplace fee, where the total marketplace fee is the
percentage fee computed in decimal-dollar space and rounded to the nearest
cent plus the fixed 30-cent transaction fee. -/
theorem netProfit_eq_sale_minus_costs (p s sh oc : ℤ)
    (hp : 0 ≤ p) (hs : 0 ≤ s) (hsh : 0 ≤ sh) (hoc : 0 ≤ oc) :
    (calculateProfit p s sh oc).netProfitCents
      = s - (p + sh + oc + (jsRound ((s : ℚ) / 100 * (13 / 100) * 100) + 30)) := by
  show s - (p + sh + oc + calculateEbayFees s)
      = s - (p + sh + oc + (jsRound ((s : ℚ) / 100 * (13 / 100) * 100) + 30))
  rw [calculateEbayFees_eq]

/-- Witness for C1 at `p = 5000`, `s = 7500`, `sh = 500`, `oc = 0`. -/
theorem netProfit_eq_sale_minus_costs_witness :
    (calculateProfit 5000 7500 500 0).netProfitCents
      = 7500 - (5000 + 500 + 0 + (jsRound ((7500 : ℚ) / 100 * (13 / 100) * 100) + 30)) :=
  netProfit_eq_sale_minus_costs 5000 7500 500 0 (by decide) (by decide)
    (by decide) (by decide)

/-- **C2.** Concrete scenario A: purchase 5000¢, sale 7500¢, shipping 500¢,
additional 0¢ with the default 13 % + 30¢ fee model yields a percentage fee
of 975¢, a total fee of 1005¢, total costs of 6505¢, a net profit of 995¢
and an ROI of 19.90 %. -/
theorem calculateProfit_scenarioA :
    (calculateProfit 5000 7500 500 0).ebayFeeCents = 975
    ∧ (calculateProfit 5000 7500 500 0).ebayFeeCents
        + (calculateProfit 5000 7500 500 0).ebayTransactionFeeCents = 1005
    ∧ (calculateProfit 5000 7500 500 0).totalCostsCents = 6505
    ∧ (calculateProfit 5000 7500 500 0).netProfitCents = 995
    ∧ (calculateProfit 5000 7500 500 0).roi = 199/10 := by
  with_unfolding_all decide

/-- **C3.** For every sale price and every shipping and additional cost,
`calculateProfit` with purchase price 0 returns ROI exactly 0: the division
by the purchase price is guarded, so a zero purchase price never produces
an error or infinity. -/
theorem roi_zero_of_zero_purchase (s sh oc : ℤ) :
    (calculateProfit 0 s sh oc).roi = 0 := by
  show (jsRound ((if (0 : ℤ) > 0 then
      ((s - (0 + sh + oc + calculateEbayFees s) : ℤ) : ℚ) / ((0 : ℤ) : ℚ) * 100
    else 0) * 100) : ℚ) / 100 = 0
  norm_num [jsRound_eq_floor]

/-- The inline fee of the record-sale handler,
`Math.round(soldPriceCents * 0.13 + 30)`, coincides with
`calculateEbayFees` at the same sale price (over exact arithmetic the two
expressions are the same rational before rounding). -/
theorem recordSale_fee_eq_calculator (s : ℤ) :
    jsRound ((s : ℚ) * (13/100) + 30) = calculateEbayFees s := by
  show _ = jsRound (((s : ℚ) / 100 * ((13 : ℚ) / 100) + ((30 : ℤ) : ℚ) / 100) * 100)
  congr 1
  push_cast
  ring

theorem calculateProfit_zero_costs_net (p s : ℤ) :
    (calculateProfit p s 0 0).netProfitCents = s - p - calculateEbayFees s := by
  show s - (p + 0 + 0 + calculateEbayFees s) = s - p - calculateEbayFees s
  ring

theorem calculateProfit_zero_costs_fee (p s : ℤ) :
    (calculateProfit p s 0 0).ebayFeeCents
      + (calculateProfit p s 0 0).ebayTransactionFeeCents = calculateEbayFees s := by
  show calculateEbayFees s - 30 + 30 = calculateEbayFees s
  ring

theorem calculateProfit_zero_costs_roi (p s : ℤ) :
    (calculateProfit p s 0 0).roi
      = if p > 0 then
          toFixed2 (((s - p - calculateEbayFees s : ℤ) : ℚ) / (p : ℚ) * 100)
        else 0 := by
  show (jsRound ((if p > 0 then
        ((s - (p + 0 + 0 + calculateEbayFees s) : ℤ) : ℚ) / ((p : ℤ) : ℚ) * 100
      else 0) * 100) : ℚ) / 100 = _
  split
  · rw [show (s - (p + 0 + 0 + calculateEbayFees s) : ℤ) = s - p - calculateEbayFees s
        from by ring]
    rfl
  · norm_num [jsRound_eq_floor]

/-- **C4 (amended).** When a sale is finalized with no explicit
`actualFees` override, the fee, net-profit and ROI stored on the updated
inventory record are the values `calculateProfit` produces for the item's
purchase price and the actual sale price **with zero shipping and zero
additional costs** (the stored fee being its percentage fee plus its fixed
transaction fee), and the sale record's financial fields are identical to
the updated inventory record's. -/
theorem recordSale_matches_zero_cost_calculator
    (inv : List (String × InventoryItem)) (sales : List (String × SaleRecord))
    (req : SaleRequest) (saleId nowDate nowIso : String)
    (item : InventoryItem) (sp : ℚ)
    (hid : req.inventoryId ≠ "") (hsp : req.soldPrice = some sp)
    (hfind : lookupItem req.inventoryId inv = some item)
    (hunsold : item.sold = false) (hfees : req.actualFees = none)
    (r : RecordSaleResult)
    (hr : r = recordSaleHandler inv sales req saleId nowDate nowIso)
    (c : ProfitCalc)
    (hc : c = calculateProfit item.purchasePriceCents (jsRound (sp * 100)) 0 0) :
    r.statusCode = 200
    ∧ r.updatedItem.map (·.ebayFeesCents)
        = some (c.ebayFeeCents + c.ebayTransactionFeeCents)
    ∧ r.updatedItem.map (·.netProfitCents) = some c.netProfitCents
    ∧ r.updatedItem.map (·.roi) = some c.roi
    ∧ r.sale.map (·.purchasePriceCents) = r.updatedItem.map (·.purchasePriceCents)
    ∧ r.sale.map (·.soldPriceCents) = r.updatedItem.map (·.soldPriceCents)
    ∧ r.sale.map (·.ebayFeesCents) = r.updatedItem.map (·.ebayFeesCents)
    ∧ r.sale.map (·.netProfitCents) = r.updatedItem.map (·.netProfitCents)
    ∧ r.sale.map (·.roi) = r.updatedItem.map (·.roi) := by
  have hbeq : (req.inventoryId == "") = false := by
    simpa using hid
  subst hr hc
  rw [calculateProfit_zero_costs_fee, calculateProfit_zero_costs_net,
    calculateProfit_zero_costs_roi]
  refine ⟨?_, ?_, ?_, ?_, ?_, ?_, ?_, ?_, ?_⟩ <;>
    simp only [recordSaleHandler, hsp, hbeq, hfind, hunsold, hfees,
      Bool.false_eq_true, if_false, Option.map_some']
  · rw [recordSale_fee_eq_calculator]
  · rw [recordSale_fee_eq_calculator]
  · rw [recordSale_fee_eq_calculator]

/-- Witness for C4 (amended): finalizing `itemUnsold` at $75.00. -/
theorem recordSale_matches_zero_cost_calculator_witness :
    (recordSaleHandler [("i1", itemUnsold)] [] reqSale "s1" "2024-02-02" "t1").statusCode = 200
    ∧ (recordSaleHandler [("i1", itemUnsold)] [] reqSale "s1" "2024-02-02" "t1").updatedItem.map (·.ebayFeesCents)
        = some ((calculateProfit itemUnsold.purchasePriceCents (jsRound ((75 : ℚ) * 100)) 0 0).ebayFeeCents
            + (calculateProfit itemUnsold.purchasePriceCents (jsRound ((75 : ℚ) * 100)) 0 0).ebayTransactionFeeCents)
    ∧ (recordSaleHandler [("i1", itemUnsold)] [] reqSale "s1" "2024-02-02" "t1").updatedItem.map (·.netProfitCents)
        = some (calculateProfit itemUnsold.purchasePriceCents (jsRound ((75 : ℚ) * 100)) 0 0).netProfitCents
    ∧ (recordSaleHandler [("i1", itemUnsold)] [] reqSale "s1" "2024-02-02" "t1").updatedItem.map (·.roi)
        = some (calculateProfit itemUnsold.purchasePriceCents (jsRound ((75 : ℚ) * 100)) 0 0).roi
    ∧ (recordSaleHandler [("i1", itemUnsold)] [] reqSale "s1" "2024-02-02" "t1").sale.map (·.purchasePriceCents)
        = (recordSaleHandler [("i1", itemUnsold)] [] reqSale "s1" "2024-02-02" "t1").updatedItem.map (·.purchasePriceCents)
    ∧ (recordSaleHandler [("i1", itemUnsold)] [] reqSale "s1" "2024-02-02" "t1").sale.map (·.soldPriceCents)
        = (recordSaleHandler [("i1", itemUnsold)] [] reqSale "s1" "2024-02-02" "t1").updatedItem.map (·.soldPriceCents)
    ∧ (recordSaleHandler [("i1", itemUnsold)] [] reqSale "s1" "2024-02-02" "t1").sale.map (·.ebayFeesCents)
        = (recordSaleHandler [("i1", itemUnsold)] [] reqSale "s1" "2024-02-02" "t1").updatedItem.map (·.ebayFeesCents)
    ∧ (recordSaleHandler [("i1", itemUnsold)] [] reqSale "s1" "2024-02-02" "t1").sale.map (·.netProfitCents)
        = (recordSaleHandler [("i1", itemUnsold)] [] reqSale "s1" "2024-02-02" "t1").updatedItem.map (·.netProfitCents)
    ∧ (recordSaleHandler [("i1", itemUnsold)] [] reqSale "s1" "2024-02-02" "t1").sale.map (·.roi)
        = (recordSaleHandler [("i1", itemUnsold)] [] reqSale "s1" "2024-02-02" "t1").updatedItem.map (·.roi) :=
  recordSale_matches_zero_cost_calculator [("i1", itemUnsold)] [] reqSale
    "s1" "2024-02-02" "t1" itemUnsold 75
    (by decide) rfl rfl rfl rfl _ rfl _ rfl

/-- Counterexample to C4 as stated: the handler's stored net profit (no
shipping is subtracted) is 1495¢, while `calculateProfit` invoked with the
item's purchase price and the actual sale price — and hence the default
500¢ shipping — yields 995¢. -/
theorem recordSale_differs_from_default_calculator :
    (recordSaleHandler [("i1", itemUnsold)] [] reqSale "s1" "2024-02-02" "t1").updatedItem.map (·.netProfitCents)
        = some 1495
    ∧ (calculateProfit 5000 7500).netProfitCents = 995
    ∧ (recordSaleHandler [("i1", itemUnsold)] [] reqSale "s1" "2024-02-02" "t1").updatedItem.map (·.netProfitCents)
        ≠ some ((calculateProfit 5000 7500).netProfitCents) := by
  have h1 : (recordSaleHandler [("i1", itemUnsold)] [] reqSale "s1" "2024-02-02" "t1").updatedItem.map (·.netProfitCents)
      = some 1495 := by with_unfolding_all rfl
  have h2 : (calculateProfit 5000 7500).netProfitCents = 995 := by
    with_unfolding_all rfl
  refine ⟨h1, h2, ?_⟩
  rw [h1, h2]
  decide

/-- **C5.** Finalizing a sale on an inventory item whose `sold` flag is
already `true` is rejected (status 400, `"Item already sold"`), and the
rejection leaves the persistent state unchanged: the inventory collection
is returned as it was and no sale record is created. -/
theorem recordSale_already_sold_conflict
    (inv : List (String × InventoryItem)) (sales : List (String × SaleRecord))
    (req : SaleRequest) (saleId nowDate nowIso : String) (item : InventoryItem)
    (hid : req.inventoryId ≠ "") (hsp : req.soldPrice ≠ none)
    (hfind : lookupItem req.inventoryId inv = some item)
    (hsold : item.sold = true) :
    recordSaleHandler inv sales req saleId nowDate nowIso
      = ⟨400, false, some "Item already sold", inv, sales, none, none⟩ := by
  obtain ⟨sp, hsp2⟩ := Option.ne_none_iff_exists'.mp hsp
  have hbeq : (req.inventoryId == "") = false := by
    simpa using hid
  simp [recordSaleHandler, hsp2, hbeq, hfind, hsold]

/-- Witness for C5: finalizing the already-sold `itemSold`. -/
theorem recordSale_already_sold_conflict_witness :
    recordSaleHandler [("i1", itemSold)] [] reqSale "s2" "2024-03-03" "t2"
      = ⟨400, false, some "Item already sold", [("i1", itemSold)], [], none, none⟩ :=
  recordSale_already_sold_conflict [("i1", itemSold)] [] reqSale
    "s2" "2024-03-03" "t2" itemSold (by decide) (by decide) rfl rfl

theorem mem_insertDeal {a d : Deal} {l : List Deal} :
    a ∈ insertDeal d l ↔ a = d ∨ a ∈ l := by
  induction l with
  | nil => simp [insertDeal]
  | cons e es ih =>
    simp only [insertDeal]
    split
    · simp [List.mem_cons]
    · simp only [List.mem_cons, ih]
      tauto

theorem mem_sortDeals {a : Deal} {l : List Deal} :
    a ∈ sortDeals l ↔ a ∈ l := by
  induction l with
  | nil => simp [sortDeals]
  | cons d ds ih => simp [sortDeals, mem_insertDeal, ih]

/-- Anatomy of a successful candidate evaluation: the produced deal
carries the candidate, its (non-zero) market value, the 80 % recommended
buy price, survives the price-ceiling test and meets the ROI threshold. -/
theorem evalCandidate_some {minRoi : ℚ} {mp : Option ℚ} {g : Option String}
    {c : Card} {d : Deal} (h : evalCandidate minRoi mp g c = some d) :
    c.loosePriceCents ≠ 0
    ∧ d.card = c
    ∧ d.marketValueCents = c.loosePriceCents
    ∧ d.recommendedBuyPriceCents = jsRound ((c.loosePriceCents : ℚ) * (8/10))
    ∧ maxPriceSkip mp d.recommendedBuyPriceCents = false
    ∧ d.roi = (calculateProfit (jsRound ((c.loosePriceCents : ℚ) * (8/10)))
        c.loosePriceCents).roi
    ∧ minRoi ≤ d.roi := by
  simp only [evalCandidate] at h
  split at h
  · exact absurd h (by simp)
  split at h
  · exact absurd h (by simp)
  split at h
  · exact absurd h (by simp)
  rename_i hgen hmkt hskip
  split at h
  case isTrue h4 =>
    injection h with h
    subst h
    exact ⟨hmkt, rfl, rfl, rfl, by simpa using hskip, rfl, h4⟩
  case isFalse h4 => exact absurd h (by simp)

/-- A candidate accepted at threshold `X` is accepted at threshold 0 when
`0 ≤ X` (all other tests are unchanged). -/
theorem evalCandidate_mono {X : ℚ} (hX : 0 ≤ X) {mp : Option ℚ}
    {g : Option String} {c : Card} {d : Deal}
    (h : evalCandidate X mp g c = some d) : evalCandidate 0 mp g c = some d := by
  simp only [evalCandidate] at h ⊢
  split at h
  · exact absurd h (by simp)
  split at h
  · exact absurd h (by simp)
  split at h
  · exact absurd h (by simp)
  rename_i hgen hmkt hskip
  split at h
  case isTrue h4 =>
    rw [if_neg hgen, if_neg hmkt, if_neg hskip, if_pos (le_trans hX h4)]
    exact h
  case isFalse h4 => exact absurd h (by simp)

/-- **C6 (amended).** When the caller supplies a nonzero maximum purchase
price, the handler interprets it in **dollars**: every deal in the output
has a recommended buy price of at most `100 × maxPrice` cents, and any
candidate whose recommended buy price exceeds that bound is skipped. -/
theorem findDeals_ceiling_dollars (cards : List Card) (minRoi m : ℚ)
    (g : Option String) (d : Deal) (hm : m ≠ 0)
    (hd : d ∈ findDeals cards minRoi (some m) g) :
    (d.recommendedBuyPriceCents : ℚ) ≤ m * 100 := by
  rw [findDeals, mem_sortDeals, findDealsUnsorted, List.mem_filterMap] at hd
  obtain ⟨c, hc, he⟩ := hd
  have h := (evalCandidate_some he).2.2.2.2.1
  rw [maxPriceSkip, if_neg hm] at h
  simpa using h

/-- Witness for C6 (amended): a $100 ceiling admits `dealBig` (buy 8000¢
≤ 10000¢). -/
theorem findDeals_ceiling_dollars_witness :
    (dealBig.recommendedBuyPriceCents : ℚ) ≤ 100 * 100 :=
  findDeals_ceiling_dollars [cardBig] 0 100 none dealBig (by norm_num)
    (by rw [show findDeals [cardBig] 0 (some 100) none = [dealBig] from by
          with_unfolding_all rfl]
        exact List.mem_singleton.mpr rfl)

/-- Counterexample to C6 as stated: with `maxPrice = 1000` read as cents
(the spec's input contract) the output still contains a deal whose
recommended buy price is 1600¢ > 1000¢, because the handler compares
against `maxPrice * 100`. -/
theorem findDeals_ceiling_cents_violated :
    dealMid ∈ findDeals [cardMid] (-100) (some 1000) none
    ∧ 1000 < dealMid.recommendedBuyPriceCents := by
  constructor
  · rw [show findDeals [cardMid] (-100) (some 1000) none = [dealMid] from by
      with_unfolding_all rfl]
    exact List.mem_singleton.mpr rfl
  · decide

/-- **C7 (amended).** For every fixed candidate list and every
**non-negative** threshold `X`, each deal returned with minimum ROI `X` is
also returned with minimum ROI 0, and has ROI at least `X` (the threshold
defaults to 20 when unspecified, by `findDeals`' default argument). -/
theorem findDeals_minRoi_subset (cards : List Card) (X : ℚ) (mp : Option ℚ)
    (g : Option String) (d : Deal) (hX : 0 ≤ X)
    (hd : d ∈ findDeals cards X mp g) :
    d ∈ findDeals cards 0 mp g ∧ X ≤ d.roi := by
  rw [findDeals, mem_sortDeals, findDealsUnsorted, List.mem_filterMap] at hd
  obtain ⟨c, hc, he⟩ := hd
  constructor
  · rw [findDeals, mem_sortDeals, findDealsUnsorted, List.mem_filterMap]
    exact ⟨c, hc, evalCandidate_mono hX he⟩
  · exact (evalCandidate_some he).2.2.2.2.2.2

/-- Witness for C7 (amended) at threshold 1 on `[cardBig]`. -/
theorem findDeals_minRoi_subset_witness :
    dealBig ∈ findDeals [cardBig] 0 none none ∧ (1 : ℚ) ≤ dealBig.roi :=
  findDeals_minRoi_subset [cardBig] 1 none none dealBig (by norm_num)
    (by rw [show findDeals [cardBig] 1 none none = [dealBig] from by
          with_unfolding_all rfl]
        exact List.mem_singleton.mpr rfl)

/-- Counterexample to C7 as stated (quantifying over *every* threshold):
at the negative threshold −1000 the evaluator returns `dealTiny`
(ROI −653.75 %), which the threshold-0 run does not return, so
`evaluate(minRoi = -1000)` is not a subset of `evaluate(minRoi = 0)`. -/
theorem findDeals_subset_fails_negative_threshold :
    dealTiny ∈ findDeals [cardTiny] (-1000) none none
    ∧ dealTiny ∉ findDeals [cardTiny] 0 none none := by
  constructor
  · rw [show findDeals [cardTiny] (-1000) none none = [dealTiny] from by
      with_unfolding_all rfl]
    exact List.mem_singleton.mpr rfl
  · rw [show findDeals [cardTiny] 0 none none = ([] : List Deal) from by
      with_unfolding_all rfl]
    exact List.not_mem_nil _

/-- **C9.** A candidate whose market-value figure is zero (or missing:
`parsePriceToCents` yields 0 for a missing price) never appears in the
evaluator's output, for every threshold, ceiling and category argument. -/
theorem findDeals_excludes_zero_market (cards : List Card) (minRoi : ℚ)
    (mp : Option ℚ) (g : Option String) (d : Deal)
    (hd : d ∈ findDeals cards minRoi mp g) :
    d.card.loosePriceCents ≠ 0 ∧ d.marketValueCents ≠ 0 := by
  rw [findDeals, mem_sortDeals, findDealsUnsorted, List.mem_filterMap] at hd
  obtain ⟨c, hc, he⟩ := hd
  obtain ⟨hne, hcard, hmkt, -⟩ := evalCandidate_some he
  constructor
  · rw [hcard]
    exact hne
  · rw [hmkt]
    exact hne

/-- Witness for C9: `dealBig` from the threshold-0 run on `[cardBig]`. -/
theorem findDeals_excludes_zero_market_witness :
    dealBig.card.loosePriceCents ≠ 0 ∧ dealBig.marketValueCents ≠ 0 :=
  findDeals_excludes_zero_market [cardBig] 0 none none dealBig
    (by rw [show findDeals [cardBig] 0 none none = [dealBig] from by
          with_unfolding_all rfl]
        exact List.mem_singleton.mpr rfl)

theorem pairwise_insertDeal {d : Deal} {l : List Deal}
    (h : List.Pairwise (fun a b => b.roi ≤ a.roi) l) :
    List.Pairwise (fun a b => b.roi ≤ a.roi) (insertDeal d l) := by
  induction l with
  | nil => simp [insertDeal]
  | cons e es ih =>
    rw [List.pairwise_cons] at h
    obtain ⟨he, hes⟩ := h
    simp only [insertDeal]
    split
    case isTrue hcond =>
      rw [List.pairwise_cons]
      refine ⟨?_, ?_⟩
      · intro x hx
        rcases List.mem_cons.mp hx with rfl | hx
        · exact hcond
        · exact le_trans (he x hx) hcond
      · rw [List.pairwise_cons]
        exact ⟨he, hes⟩
    case isFalse hcond =>
      rw [List.pairwise_cons]
      refine ⟨?_, ih hes⟩
      intro x hx
      rcases mem_insertDeal.mp hx with rfl | hx
      · exact le_of_lt (lt_of_not_le hcond)
      · exact he x hx

theorem sortDeals_pairwise (l : List Deal) :
    List.Pairwise (fun a b => b.roi ≤ a.roi) (sortDeals l) := by
  induction l with
  | nil => simp [sortDeals]
  | cons d ds ih =>
    rw [sortDeals]
    exact pairwise_insertDeal ih

theorem filter_insertDeal_ne {r : ℚ} {d : Deal} {l : List Deal}
    (hd : d.roi ≠ r) :
    (insertDeal d l).filter (fun e => decide (e.roi = r))
      = l.filter (fun e => decide (e.roi = r)) := by
  induction l with
  | nil => simp [insertDeal, hd]
  | cons e es ih =>
    simp only [insertDeal]
    split
    · simp [List.filter_cons, hd]
    · simp only [List.filter_cons, ih]

theorem filter_insertDeal_eq {r : ℚ} {d : Deal} {l : List Deal}
    (hd : d.roi = r) :
    (insertDeal d l).filter (fun e => decide (e.roi = r))
      = d :: l.filter (fun e => decide (e.roi = r)) := by
  induction l with
  | nil => simp [insertDeal, hd]
  | cons e es ih =>
    simp only [insertDeal]
    split
    case isTrue hcond =>
      simp [List.filter_cons, hd]
    case isFalse hcond =>
      have hne : ¬ (e.roi = r) := by
        intro hx
        exact hcond (le_of_eq (hx.trans hd.symm))
      simp [List.filter_cons, hne, ih]

theorem sortDeals_filter_eq (l : List Deal) (r : ℚ) :
    (sortDeals l).filter (fun e => decide (e.roi = r))
      = l.filter (fun e => decide (e.roi = r)) := by
  induction l with
  | nil => rfl
  | cons d ds ih =>
    rw [sortDeals]
    by_cases hd : d.roi = r
    · rw [filter_insertDeal_eq hd, ih, List.filter_cons, if_pos (by simpa using hd)]
    · rw [filter_insertDeal_ne hd, ih, List.filter_cons, if_neg (by simpa using hd)]

/-- **C8.** The evaluator's output is sorted in non-increasing ROI order,
and deals of equal ROI keep the relative order in which their candidates
appeared in the input (the unsorted deal list is in input order, and
sorting preserves each equal-ROI fibre). -/
theorem findDeals_sorted_and_stable (cards : List Card) (minRoi : ℚ)
    (mp : Option ℚ) (g : Option String) :
    List.Pairwise (fun a b => b.roi ≤ a.roi) (findDeals cards minRoi mp g)
    ∧ ∀ r : ℚ, (findDeals cards minRoi mp g).filter (fun d => decide (d.roi = r))
        = (findDealsUnsorted cards minRoi mp g).filter (fun d => decide (d.roi = r)) :=
  ⟨sortDeals_pairwise _, fun r => sortDeals_filter_eq _ r⟩

/-- **C10.** A supplied genre filter never skips a candidate whose own
genre is missing/empty — evaluation proceeds exactly as with no filter —
and the only candidates the genre filter skips are those with a non-empty
genre that does not contain the filter string case-insensitively. -/
theorem genreFilter_empty_transparent (g : String) (minRoi : ℚ)
    (mp : Option ℚ) (c : Card) :
    (c.genre = "" → evalCandidate minRoi mp (some g) c = evalCandidate minRoi mp none c)
    ∧ (genreSkip (some g) c.genre = true
        → c.genre ≠ "" ∧ charsIncl (lowerChars g) (lowerChars c.genre) = false) := by
  constructor
  · intro hc
    have hskip : genreSkip (some g) c.genre = false := by
      rw [genreSkip, hc]
      by_cases hg : g = "" <;> simp [hg]
    have hnone : genreSkip none c.genre = false := rfl
    rw [evalCandidate, evalCandidate, hskip, hnone]
  · intro h
    rw [genreSkip] at h
    by_cases hg : g = ""
    · rw [if_pos hg] at h
      exact absurd h (by simp)
    · rw [if_neg hg] at h
      by_cases hcg : c.genre = ""
      · rw [if_pos hcg] at h
        exact absurd h (by simp)
      · rw [if_neg hcg] at h
        exact ⟨hcg, by simpa using h⟩

/-- Witness for C10: the filter `"base"` is transparent for the
genre-less `cardNoGenre` — which indeed appears in the filtered output —
and skipping `cardFootball` under `"base"` certifies a non-empty,
non-matching genre. -/
theorem genreFilter_empty_transparent_witness :
    evalCandidate (-100) none (some "base") cardNoGenre
        = evalCandidate (-100) none none cardNoGenre
    ∧ (cardFootball.genre ≠ ""
        ∧ charsIncl (lowerChars "base") (lowerChars cardFootball.genre) = false)
    ∧ dealNoGenre ∈ findDeals [cardNoGenre] (-100) none (some "base") :=
  ⟨(genreFilter_empty_transparent "base" (-100) none cardNoGenre).1 rfl,
   (genreFilter_empty_transparent "base" (-100) none cardFootball).2 (by decide),
   by rw [show findDeals [cardNoGenre] (-100) none (some "base") = [dealNoGenre] from by
        with_unfolding_all rfl]
      exact List.mem_singleton.mpr rfl⟩

end SportsCard
